import Mathlib

/-!
Shallow embedding of the `cli` Go library (steverusso/cli): the command-line
parsing engine in `cli.go` (`parse`, `newInput`, `Lookup`, `ParseThese`) and
the schema builder / one-time validation pass in `builder.go`
(`prepareAndValidate`, `Arg`, `Opt`, `Subcmd`, `NewCmd`, `NewOpt`, `NewArg`).

Modelling conventions:
- Go strings are indexed by bytes; the model works with `List Char`. All
  behavior relevant here is byte-per-character (ASCII), where the two agree.
- Go `any`-typed parsed values are modelled by the closed `Value` type below;
  a user value parser (`ValueParser`) is an arbitrary
  `String → Except String Value` function, `none` meaning Go's `nil` parser.
- The `HelpGen` / `Versioner` function fields of `InputInfo` only matter to
  the parser through being non-nil (they trigger the `HelpOrVersionRequested`
  short-circuit); the rendered message itself is produced by the excluded
  help-rendering code. They are therefore modelled as presence flags, and the
  short-circuit signal carries the triggering parsed `Input` (from which the
  Go code renders the message) instead of a rendered string.
- Go panics in the builder / validation pass are modelled as `Except String`.
- The process environment is passed explicitly as an association list.
-/

namespace Cli

/-- Dynamically typed parsed value (Go `any`). -/
inductive Value where
  | str (s : String)
  | bool (b : Bool)
  | int (i : Int)
deriving DecidableEq, Repr

/-- Go `strconv.ParseBool` as wrapped by `ParseBool` in parsers.go. -/
def goParseBool (s : String) : Except String Value :=
  if s = "1" ∨ s = "t" ∨ s = "T" ∨ s = "TRUE" ∨ s = "true" ∨ s = "True" then
    .ok (.bool true)
  else if s = "0" ∨ s = "f" ∨ s = "F" ∨ s = "FALSE" ∨ s = "false" ∨ s = "False" then
    .ok (.bool false)
  else
    .error ("invalid boolean value \"" ++ s ++ "\"")

/-- Go `InputInfo` (cli.go). `NameShort byte` (0 meaning absent) is modelled as
`Option Char`; the `HelpGen` and `Versioner` function fields are modelled as
presence flags (see the header comment). -/
structure InputInfo where
  id : String
  nameShort : Option Char
  nameLong : String
  helpBlurb : String
  envVar : String
  isBoolOpt : Bool
  isRequired : Bool
  strDefault : String
  hasStrDefault : Bool
  valueName : String
  valueParser : Option (String → Except String Value)
  hasHelpGen : Bool
  hasVersioner : Bool

/-- Go `ParsedFrom` (cli.go): exactly one field is non-zero. -/
structure ParsedFrom where
  env : String
  opt : String
  arg : Nat
  defaultVal : Bool
deriving DecidableEq, Repr

/-- Go composite literal `ParsedFrom{Default: true}`. -/
def fromDefault : ParsedFrom := ⟨"", "", 0, true⟩

/-- Go composite literal `ParsedFrom{Env: name}`. -/
def fromEnv (name : String) : ParsedFrom := ⟨name, "", 0, false⟩

/-- Go composite literal `ParsedFrom{Opt: name}`. -/
def fromOpt (name : String) : ParsedFrom := ⟨"", name, 0, false⟩

/-- Go composite literal `ParsedFrom{Arg: n}`. -/
def fromArg (n : Nat) : ParsedFrom := ⟨"", "", n, false⟩

/-- Go `Input` (cli.go): one parsed input value. Field `From` is `src` here. -/
structure Input where
  value : Value
  id : String
  rawValue : String
  src : ParsedFrom
deriving DecidableEq, Repr

/-- Go `CommandInfo` (cli.go), with fields in source order. Recursive through
`subcmds`, hence an inductive with accessor functions below. -/
inductive CommandInfo where
  | mk (name : String) (path : List String) (helpUsage : List String)
      (helpBlurb : String) (helpExtra : String) (opts : List InputInfo)
      (args : List InputInfo) (subcmds : List CommandInfo)
      (isSubcmdOptional : Bool) (isPrepped : Bool)

def CommandInfo.name : CommandInfo → String
  | .mk n _ _ _ _ _ _ _ _ _ => n

def CommandInfo.path : CommandInfo → List String
  | .mk _ p _ _ _ _ _ _ _ _ => p

def CommandInfo.opts : CommandInfo → List InputInfo
  | .mk _ _ _ _ _ o _ _ _ _ => o

def CommandInfo.args : CommandInfo → List InputInfo
  | .mk _ _ _ _ _ _ a _ _ _ => a

def CommandInfo.subcmds : CommandInfo → List CommandInfo
  | .mk _ _ _ _ _ _ _ s _ _ => s

def CommandInfo.isSubcmdOptional : CommandInfo → Bool
  | .mk _ _ _ _ _ _ _ _ o _ => o

def CommandInfo.isPrepped : CommandInfo → Bool
  | .mk _ _ _ _ _ _ _ _ _ p => p

/-- Go `Command` (cli.go): the parsed result. Recursive through `subcmd`. -/
inductive Command where
  | mk (name : String) (inputs : List Input) (surplus : List String)
      (subcmd : Option Command)

def Command.name : Command → String
  | .mk n _ _ _ => n

def Command.inputs : Command → List Input
  | .mk _ i _ _ => i

def Command.surplus : Command → List String
  | .mk _ _ s _ => s

def Command.subcmd : Command → Option Command
  | .mk _ _ _ s => s

/-- Go `p.Inputs = append(p.Inputs, pi)`. -/
def Command.pushInput : Command → Input → Command
  | .mk n i s sc, pi => .mk n (i ++ [pi]) s sc

/-- Go `p.Surplus = rest`. -/
def Command.setSurplus : Command → List String → Command
  | .mk n i _ sc, s => .mk n i s sc

/-- Go `p.Subcmd = sub`. -/
def Command.setSubcmd : Command → Command → Command
  | .mk n i s _, sub => .mk n i s (some sub)

/-- The process environment, passed explicitly (Go reads `os.LookupEnv`). -/
abbrev EnvMap := List (String × String)

/-- Go `os.LookupEnv` over the explicit environment. -/
def lookupEnvVar (env : EnvMap) (name : String) : Option String :=
  match env with
  | [] => none
  | (k, v) :: rest => if k = name then some v else lookupEnvVar rest name

/-- Go `newInput` (cli.go): coerce a raw string through the input's parser,
the default boolean rule, or verbatim. -/
def newInput (info : InputInfo) (src : ParsedFrom) (rawValue : String) :
    Except String Input :=
  let valE : Except String Value :=
    match info.valueParser with
    | some vp => vp rawValue
    | none =>
      if info.isBoolOpt then
        if rawValue ≠ "" then goParseBool rawValue else .ok (.bool true)
      else
        .ok (.str rawValue)
  match valE with
  | .error e => .error e
  | .ok v => .ok ⟨v, info.id, rawValue, src⟩

/-- Go `hasOpt` (cli.go). -/
def hasOpt (c : Command) (id : String) : Bool :=
  c.inputs.any (fun i => i.id == id)

/-- Go `hasArg` (cli.go). -/
def hasArg (c : Command) (id : String) : Bool :=
  c.inputs.any (fun i => i.id == id)

/-- Go `lookupOptionByShortName` (cli.go): first option whose short name is
the given character. -/
def lookupOptionByShortName (c : CommandInfo) (shortName : Char) : Option InputInfo :=
  c.opts.find? (fun o => o.nameShort == some shortName)

/-- The error values returned by the Go parsing code (cli.go). Errors carrying
`CmdInfo` in Go carry the command path here (that is what their messages use).
`wrapped` stands for the `fmt.Errorf`-wrapped value-coercion errors, and
`helpOrVersionRequested` carries the triggering input (see header comment). -/
inductive ParseError where
  | helpOrVersionRequested (src : Input)
  | errNoSubcmd
  | unknownSubcmd (cmdPath : List String) (name : String)
  | unknownOption (cmdPath : List String) (name : String)
  | missingOptionValue (cmdPath : List String) (name : String)
  | missingOptions (cmdPath : List String) (names : List String)
  | missingArgs (cmdPath : List String) (names : List String)
  | wrapped (msg : String)
deriving DecidableEq, Repr

/-- Seed one group of inputs from their declared defaults: the
`set any defaults` loops at the top of Go `parse` (cli.go). `kind` is the word
used in the wrapping error message (`option` for `c.Opts`, `arg` for
`c.Args`). On error the entries appended so far are kept, as in Go. -/
def seedDefaults (kind : String) (infos : List InputInfo) (p : Command) :
    Command × Option ParseError :=
  match infos with
  | [] => (p, none)
  | info :: rest =>
    if info.hasStrDefault then
      match newInput info fromDefault info.strDefault with
      | .error e =>
        (p, some (.wrapped ("parsing default value '" ++ info.strDefault ++
          "' for " ++ kind ++ " '" ++ info.id ++ "': " ++ e)))
      | .ok pi => seedDefaults kind rest (p.pushInput pi)
    else
      seedDefaults kind rest p

/-- Seed one group of inputs from bound environment variables: the
`grab any envs` loops of Go `parse` (cli.go). -/
def seedEnvs (env : EnvMap) (infos : List InputInfo) (p : Command) :
    Command × Option ParseError :=
  match infos with
  | [] => (p, none)
  | info :: rest =>
    if info.envVar ≠ "" then
      match lookupEnvVar env info.envVar with
      | some v =>
        match newInput info (fromEnv info.envVar) v with
        | .error e =>
          (p, some (.wrapped ("using env var '" ++ info.envVar ++ "': " ++ e)))
        | .ok pi => seedEnvs env rest (p.pushInput pi)
      | none => seedEnvs env rest p
    else
      seedEnvs env rest p

/-- The default/environment seeding stages of Go `parse` (cli.go), in source
order: option defaults, arg defaults, option envs, arg envs. -/
def seedInputs (c : CommandInfo) (env : EnvMap) (p : Command) :
    Command × Option ParseError :=
  match seedDefaults "option" c.opts p with
  | (p, some e) => (p, some e)
  | (p, none) =>
    match seedDefaults "arg" c.args p with
    | (p, some e) => (p, some e)
    | (p, none) =>
      match seedEnvs env c.opts p with
      | (p, some e) => (p, some e)
      | (p, none) => seedEnvs env c.args p

/-- Result of one short-option-cluster token walk (`-abc` handling in Go
`parse`): an error, or success telling whether the next whole token was
consumed as an option value. -/
inductive ClusterOut where
  | errOut (e : ParseError)
  | okOut (consumedNext : Bool)

/-- The short-option-cluster loop of Go `parse` (cli.go): iterate the
characters of the token (already stripped of its leading hyphen). `nextTok`
is the following command line token, available as the value of a trailing
non-boolean short option. -/
def scanCluster (c : CommandInfo) (p : Command) (chars : List Char)
    (nextTok : Option String) : Command × ClusterOut :=
  match chars with
  | [] => (p, .okOut false)
  | ch :: rest =>
    match lookupOptionByShortName c ch with
    | none => (p, .errOut (.unknownOption c.path ("-" ++ String.mk [ch])))
    | some optInfo =>
      -- rawValue / skipRest / next-token consumption, as in the Go loop
      let step : Except ParseError (String × Bool × Bool) :=
        if !optInfo.isBoolOpt then
          if rest = [] then
            match nextTok with
            | some v => .ok (v, false, true)
            | none => .error (.missingOptionValue c.path (String.mk [ch]))
          else
            .ok (String.mk rest, true, false)
        else
          .ok ("", false, false)
      match step with
      | .error e => (p, .errOut e)
      | .ok (rawValue, skipRest, consumedNext) =>
        match newInput optInfo (fromOpt (String.mk [ch])) rawValue with
        | .error e =>
          (p, .errOut (.wrapped ("parsing option '" ++ String.mk [ch] ++ "': " ++ e)))
        | .ok pi =>
          if optInfo.hasHelpGen then (p, .errOut (.helpOrVersionRequested pi))
          else if optInfo.hasVersioner then (p, .errOut (.helpOrVersionRequested pi))
          else
            let p := p.pushInput pi
            if skipRest then (p, .okOut consumedNext)
            else
              match rest with
              | [] =>
                -- last cluster character: the loop ends here, reporting
                -- whether this option's value consumed the next token
                -- (the Go loop's interior `i++` at the last character)
                (p, .okOut consumedNext)
              | _ => scanCluster c p rest nextTok

/-- Split a token's characters at the first `=`, as the `eqIdx` scan of Go
`parse` does: the name part, and the value part when an `=` was present. -/
def splitAtEq : List Char → List Char × Option (List Char)
  | [] => ([], none)
  | ch :: rest =>
    if ch = '=' then ([], some rest)
    else
      let (n, v) := splitAtEq rest
      (ch :: n, v)

/-- What the option-scanning loop of Go `parse` does after one token:
stop without consuming it, stop after consuming it (a lone `--`), continue
(having consumed the following token as an option value when `consumedNext`),
or fail. -/
inductive TokenOut where
  | stopHere
  | stopAfter
  | cont (consumedNext : Bool)
  | failTok (e : ParseError)

/-- The non-cluster arm of the option-scanning loop of Go `parse` (cli.go):
resolve `--name[=v]`, `-x` or `-x=v`. `nameAndVal` is the token with its
hyphens stripped; `tok` the original token (used by the unknown-option
error); `moreToks` the following tokens (source of a separate value). -/
def scanLongOrSingle (c : CommandInfo) (p : Command) (tok : String)
    (nameAndVal : List Char) (moreToks : List String) : Command × TokenOut :=
  let (nameChars, eqVal) := splitAtEq nameAndVal
  let name := String.mk nameChars
  let optInfo : Option InputInfo :=
    match nameChars with
    | [oneCh] => lookupOptionByShortName c oneCh
    | _ => c.opts.find? (fun o => o.nameLong == name)
  match optInfo with
  | none => (p, .failTok (.unknownOption c.path tok))
  | some optInfo =>
    let step : Except ParseError (String × Bool) :=
      match eqVal with
      | some valChars => .ok (String.mk valChars, false)
      | none =>
        if !optInfo.isBoolOpt then
          match moreToks with
          | v :: _ => .ok (v, true)
          | [] => .error (.missingOptionValue c.path name)
        else
          .ok ("", false)
    match step with
    | .error e => (p, .failTok e)
    | .ok (rawValue, consumedNext) =>
      match newInput optInfo (fromOpt name) rawValue with
      | .error e =>
        (p, .failTok (.wrapped ("parsing option '" ++ name ++ "': " ++ e)))
      | .ok pi =>
        if optInfo.hasHelpGen then (p, .failTok (.helpOrVersionRequested pi))
        else if optInfo.hasVersioner then (p, .failTok (.helpOrVersionRequested pi))
        else (p.pushInput pi, .cont consumedNext)

/-- One iteration of the option-scanning loop of Go `parse` (cli.go),
classifying and processing the token `tok`. -/
def scanToken (c : CommandInfo) (p : Command) (tok : String)
    (moreToks : List String) : Command × TokenOut :=
  match tok.toList with
  | [] => (p, .stopHere)                    -- len(arg) == 0: stop
  | ch :: chs =>
    if ch ≠ '-' then (p, .stopHere)         -- arg[0] != '-': stop
    else
      match chs with
      | [] => (p, .stopHere)                -- lone "-": stop, keep token
      | c1 :: ctail =>
        if c1 ≠ '-' ∧ ctail ≠ [] ∧ ctail.head? ≠ some '=' then
          -- short-option cluster such as `-ab` or `-avalue`
          match scanCluster c p (c1 :: ctail) moreToks.head? with
          | (p, .errOut e) => (p, .failTok e)
          | (p, .okOut consumedNext) => (p, .cont consumedNext)
        else if c1 = '-' then
          match ctail with
          | [] => (p, .stopAfter)           -- lone "--": consume it and stop
          | _ => scanLongOrSingle c p tok ctail moreToks
        else
          scanLongOrSingle c p tok (c1 :: ctail) moreToks

/-- Result of the option-scanning loop of Go `parse`: an error, or the tokens
remaining once option scanning stopped (`args[i:]`). -/
inductive ScanResult where
  | more (toks : List String)
  | errScan (e : ParseError)

/-- The option-scanning loop of Go `parse` (cli.go): consume leading option
tokens, stopping at the first non-option token, a lone `-` (not consumed), or
a lone `--` (consumed). -/
def scanOptions (c : CommandInfo) (p : Command) (args : List String) :
    Command × ScanResult :=
  match args with
  | [] => (p, .more [])
  | tok :: moreToks =>
    match scanToken c p tok moreToks with
    | (p, .failTok e) => (p, .errScan e)
    | (p, .stopHere) => (p, .more (tok :: moreToks))
    | (p, .stopAfter) => (p, .more moreToks)
    | (p, .cont false) => scanOptions c p moreToks
    | (p, .cont true) =>
      -- the next whole token was consumed as an option value (so it exists)
      match moreToks with
      | [] => (p, .more [])
      | _ :: afterVal => scanOptions c p afterVal

/-- The display name used for a missing required option in Go `parse`
(cli.go): the long name if present, else the short name. -/
def requiredOptName (o : InputInfo) : String :=
  if o.nameLong ≠ "" then "--" ++ o.nameLong
  else "-" ++ (match o.nameShort with | some ch => String.mk [ch] | none => "")

/-- The `check that all required options were provided` loop of Go `parse`:
the display names of required options with no recorded entry, in declaration
order. -/
def missingRequiredOpts (c : CommandInfo) (p : Command) : List String :=
  (c.opts.filter (fun o => o.isRequired && !(hasOpt p o.id))).map requiredOptName

/-- The inner missing-required-arguments collection loop of Go `parse`:
walk the remaining positional schema entries while they are required,
collecting the value names of those with no recorded entry. -/
def collectMissingArgs (p : Command) : List InputInfo → List String
  | [] => []
  | a :: rest =>
    if !a.isRequired then []
    else if !hasArg p a.id then a.valueName :: collectMissingArgs p rest
    else collectMissingArgs p rest

/-- The positional-argument walk of Go `parse` (cli.go): consume one remaining
token per declared positional entry; extra tokens become surplus; a missing
required entry yields a missing-arguments error; a missing optional entry
stops the walk. `argIdx` counts positional slots consumed so far. -/
def parsePositionals (c : CommandInfo) (cargs : List InputInfo) (argIdx : Nat)
    (rest : List String) (p : Command) : Command × Option ParseError :=
  match cargs, rest with
  | [], [] => (p, none)
  | [], leftover => (p.setSurplus leftover, none)
  | a :: arest, tok :: trest =>
    match newInput a (fromArg (argIdx + 1)) tok with
    | .error e =>
      (p, some (.wrapped ("parsing positional argument #" ++ toString (argIdx + 1) ++
        " '" ++ tok ++ "': " ++ e)))
    | .ok pi => parsePositionals c arest (argIdx + 1) trest (p.pushInput pi)
  | a :: arest, [] =>
    if a.isRequired then
      match collectMissingArgs p (a :: arest) with
      | [] => (p, none)
      | missing => (p, some (.missingArgs c.path missing))
    else
      (p, none)

/-- The error-combination logic at the subcommand-recursion return of Go
`parse` (cli.go): a held missing-required-options error is returned unless
the subcommand produced the help/version short-circuit signal. -/
def combineSubcmdErr (errMissingOpts errFromSubcmd : Option ParseError) :
    Option ParseError :=
  match errMissingOpts with
  | none => errFromSubcmd
  | some m =>
    match errFromSubcmd with
    | some (.helpOrVersionRequested i) => some (.helpOrVersionRequested i)
    | _ => some m

/-- Go `parse` (cli.go). The Go function recurses into the matched
subcommand's schema; the recursion is driven here by explicit fuel, which
strictly exceeds the recursion depth whenever it exceeds the number of
remaining tokens (each recursion step consumes the subcommand-name token).
Go mutates `p` and returns an error; here the built `Command` is returned
alongside the optional error, keeping all entries recorded before any
failure point, exactly as the Go code leaves them in `p`. -/
def parse (fuel : Nat) (c : CommandInfo) (env : EnvMap) (p : Command)
    (args : List String) : Command × Option ParseError :=
  match fuel with
  | 0 => (p, some (.wrapped "out of fuel"))
  | fuel + 1 =>
    match seedInputs c env p with
    | (p, some e) => (p, some e)
    | (p, none) =>
      match scanOptions c p args with
      | (p, .errScan e) => (p, some e)
      | (p, .more rest) =>
        let missing := missingRequiredOpts c p
        if !missing.isEmpty && c.subcmds.isEmpty then
          (p, some (.missingOptions c.path missing))
        else
          let errMissingOpts : Option ParseError :=
            if !missing.isEmpty then some (.missingOptions c.path missing) else none
          if c.subcmds.isEmpty then
            parsePositionals c c.args 0 rest p
          else
            match rest with
            | [] =>
              if c.isSubcmdOptional then (p, none) else (p, some .errNoSubcmd)
            | subName :: tailToks =>
              match c.subcmds.find? (fun s => s.name == subName) with
              | none => (p, some (.unknownSubcmd c.path subName))
              | some subInfo =>
                let (subP, errFromSubcmd) :=
                  parse fuel subInfo env (.mk subName [] [] none) tailToks
                (p.setSubcmd subP, combineSubcmdErr errMissingOpts errFromSubcmd)

/-! ## Schema builder and one-time validation pass (builder.go)

Go panics raised by the builder functions and by `prepareAndValidate` are
modelled as `Except String` results carrying the panic message. -/

def errMixingPosArgsAndSubcmds : String :=
  "commands cannot have both positional args and subcommands"

def errEmptyCmdName : String := "empty command name"

def errEmptyInputID : String := "inputs must have non-empty, unique ids"

def errEmptyOptNames : String := "options must have either a short or long name"

def errOptAsPosArg : String := "adding an option as a positional argument"

def errReqArgAfterOptional : String :=
  "required positional arguments cannot come after optional ones"

/-- Go `InputInfo.isOption` (builder.go). -/
def InputInfo.isOption (i : InputInfo) : Bool :=
  i.nameShort.isSome || i.nameLong ≠ ""

/-- Go `InputInfo.Short` (builder.go). -/
def InputInfo.Short (i : InputInfo) (c : Char) : InputInfo :=
  { i with nameShort := some c }

/-- Go `InputInfo.ShortOnly` (builder.go). -/
def InputInfo.ShortOnly (i : InputInfo) (c : Char) : InputInfo :=
  InputInfo.Short { i with nameLong := "" } c

/-- Go `InputInfo.Long` (builder.go). -/
def InputInfo.Long (i : InputInfo) (name : String) : InputInfo :=
  { i with nameLong := name }

/-- Go `InputInfo.Help` (builder.go). -/
def InputInfo.Help (i : InputInfo) (blurb : String) : InputInfo :=
  { i with helpBlurb := blurb }

/-- Go `InputInfo.Env` (builder.go). -/
def InputInfo.Env (i : InputInfo) (e : String) : InputInfo :=
  { i with envVar := e }

/-- Go `InputInfo.Required` (builder.go). -/
def InputInfo.Required (i : InputInfo) : InputInfo :=
  { i with isRequired := true }

/-- Go `InputInfo.Default` (builder.go). -/
def InputInfo.Default (i : InputInfo) (v : String) : InputInfo :=
  { i with strDefault := v, hasStrDefault := true }

/-- Go `InputInfo.WithParser` (builder.go). -/
def InputInfo.WithParser (i : InputInfo) (vp : Option (String → Except String Value)) :
    InputInfo :=
  { i with valueParser := vp }

/-- Go `InputInfo.WithHelpGen` (builder.go), as a presence flag. -/
def InputInfo.WithHelpGen (i : InputInfo) : InputInfo :=
  { i with hasHelpGen := true }

/-- The all-zero `InputInfo` (Go's zero value for the struct). -/
def blankInput : InputInfo :=
  ⟨"", none, "", "", "", false, false, "", false, "", none, false, false⟩

/-- Go `NewOpt` (builder.go): a single-character id becomes the short name,
a longer id becomes the long name. Panics on an empty id. -/
def NewOpt (id : String) : Except String InputInfo :=
  if id = "" then .error errEmptyInputID
  else
    match id.toList with
    | [oneCh] => .ok (InputInfo.ShortOnly { blankInput with id := id } oneCh)
    | _ => .ok (InputInfo.Long { blankInput with id := id } id)

/-- Go `NewBoolOpt` (builder.go). -/
def NewBoolOpt (id : String) : Except String InputInfo :=
  match NewOpt id with
  | .error e => .error e
  | .ok o => .ok { o with isBoolOpt := true }

/-- Go `NewArg` (builder.go). -/
def NewArg (id : String) : Except String InputInfo :=
  if id = "" then .error errEmptyInputID
  else .ok { blankInput with id := id, valueName := id }

/-- Go `DefaultHelpInput` (builder.go):
`NewBoolOpt("help").Short('h').Help("Show this help message and exit.").WithHelpGen(DefaultHelpGenerator)`,
written out as the value that chain produces. -/
def DefaultHelpInput : InputInfo :=
  { blankInput with
    id := "help", nameShort := some 'h', nameLong := "help",
    helpBlurb := "Show this help message and exit.",
    isBoolOpt := true, hasHelpGen := true }

/-- Whether a Go string for a command name contains whitespace
(the characters checked by `NewCmd`). -/
def nameHasWhitespace (name : String) : Bool :=
  name.toList.any (fun ch => ch = ' ' ∨ ch = '\t' ∨ ch = '\n' ∨ ch = '\r')

/-- Go `NewCmd` (builder.go): panics on an empty or whitespace-containing
name. -/
def NewCmd (name : String) : Except String CommandInfo :=
  if name = "" then .error errEmptyCmdName
  else if nameHasWhitespace name then
    .error ("invalid command name '" ++ name ++ "': cannot contain whitespace")
  else
    .ok (.mk name [name] [] "" "" [] [] [] false false)

def CommandInfo.pushOpt : CommandInfo → InputInfo → CommandInfo
  | .mk n p hu hb he o a s so ip, i => .mk n p hu hb he (o ++ [i]) a s so ip

def CommandInfo.pushArg : CommandInfo → InputInfo → CommandInfo
  | .mk n p hu hb he o a s so ip, i => .mk n p hu hb he o (a ++ [i]) s so ip

def CommandInfo.pushSubcmd : CommandInfo → CommandInfo → CommandInfo
  | .mk n p hu hb he o a s so ip, sc => .mk n p hu hb he o a (s ++ [sc]) so ip

def CommandInfo.setPath : CommandInfo → List String → CommandInfo
  | .mk n _ hu hb he o a s so ip, p => .mk n p hu hb he o a s so ip

def CommandInfo.setOpts : CommandInfo → List InputInfo → CommandInfo
  | .mk n p hu hb he _ a s so ip, o => .mk n p hu hb he o a s so ip

def CommandInfo.setSubcmds : CommandInfo → List CommandInfo → CommandInfo
  | .mk n p hu hb he o a _ so ip, s => .mk n p hu hb he o a s so ip

/-- Go `CommandInfo.Opt` (builder.go): panics when the input has neither a
short nor a long name. -/
def CommandInfo.Opt (c : CommandInfo) (o : InputInfo) : Except String CommandInfo :=
  if o.nameShort = none ∧ o.nameLong = "" then .error errEmptyOptNames
  else .ok (c.pushOpt o)

/-- Go `CommandInfo.Arg` (builder.go): panics when the command already has
subcommands, when the input is an option, or when a required positional
argument would follow an optional one. -/
def CommandInfo.Arg (c : CommandInfo) (a : InputInfo) : Except String CommandInfo :=
  if !c.subcmds.isEmpty then .error errMixingPosArgsAndSubcmds
  else if a.isOption then .error errOptAsPosArg
  else if a.isRequired &&
      (match c.args.getLast? with
       | some lastArg => !lastArg.isRequired
       | none => false) then
    .error errReqArgAfterOptional
  else
    .ok (c.pushArg a)

/-- Go `CommandInfo.Subcmd` (builder.go): panics when the command already has
positional arguments; sets the subcommand's path. -/
def CommandInfo.Subcmd (c : CommandInfo) (sc : CommandInfo) : Except String CommandInfo :=
  if !c.args.isEmpty then .error errMixingPosArgsAndSubcmds
  else .ok (c.pushSubcmd (sc.setPath (c.path ++ [sc.name])))

/-- The per-pair option assertions of Go `prepareAndValidate` (builder.go),
in source order: duplicate id, duplicate non-empty short name, duplicate
non-empty long name. -/
def checkOptPair (path : List String) (a b : InputInfo) : Except String Unit :=
  if a.id = b.id then
    .error ("command '" ++ String.intercalate " " path ++
      "' contains duplicate option ids '" ++ a.id ++ "'")
  else if a.nameShort.isSome && a.nameShort == b.nameShort then
    .error ("command '" ++ String.intercalate " " path ++
      "' contains duplicate option short name '" ++
      (match a.nameShort with | some ch => String.mk [ch] | none => "") ++ "'")
  else if a.nameLong ≠ "" ∧ a.nameLong = b.nameLong then
    .error ("command '" ++ String.intercalate " " path ++
      "' contains duplicate option long name '" ++ a.nameLong ++ "'")
  else
    .ok ()

/-- The inner `z` loop of the option assertions: check one option against all
later ones. -/
def checkOptAgainstRest (path : List String) (a : InputInfo) :
    List InputInfo → Except String Unit
  | [] => .ok ()
  | b :: rest =>
    match checkOptPair path a b with
    | .error e => .error e
    | .ok () => checkOptAgainstRest path a rest

/-- The pairwise option assertions of Go `prepareAndValidate` (the `i`/`z`
loops over `c.Opts`). -/
def checkOptDups (path : List String) : List InputInfo → Except String Unit
  | [] => .ok ()
  | a :: rest =>
    match checkOptAgainstRest path a rest with
    | .error e => .error e
    | .ok () => checkOptDups path rest

/-- The pairwise duplicate-arg-id assertions of Go `prepareAndValidate`. -/
def checkArgAgainstRest (path : List String) (a : InputInfo) :
    List InputInfo → Except String Unit
  | [] => .ok ()
  | b :: rest =>
    if a.id = b.id then
      .error ("command '" ++ String.intercalate " " path ++
        "' contains duplicate argument ids '" ++ a.id ++ "'")
    else checkArgAgainstRest path a rest

def checkArgDups (path : List String) : List InputInfo → Except String Unit
  | [] => .ok ()
  | a :: rest =>
    match checkArgAgainstRest path a rest with
    | .error e => .error e
    | .ok () => checkArgDups path rest

/-- The pairwise duplicate-subcommand-name assertions of Go
`prepareAndValidate`. -/
def checkSubcmdAgainstRest (path : List String) (a : CommandInfo) :
    List CommandInfo → Except String Unit
  | [] => .ok ()
  | b :: rest =>
    if a.name = b.name then
      .error ("command '" ++ String.intercalate " " path ++
        "' contains duplicate subcommand name '" ++ a.name ++ "'")
    else checkSubcmdAgainstRest path a rest

def checkSubcmdDups (path : List String) : List CommandInfo → Except String Unit
  | [] => .ok ()
  | a :: rest =>
    match checkSubcmdAgainstRest path a rest with
    | .error e => .error e
    | .ok () => checkSubcmdDups path rest

mutual

/-- Go `prepareAndValidate` (builder.go): append the default help option when
no option carries a help generator, run the duplicate assertions (panics
modelled as `.error`), and recurse into the subcommands. Returns the prepped
tree (Go mutates it in place). -/
def prepareAndValidate : CommandInfo → Except String CommandInfo
  | .mk name path hu hb he opts args subcmds so ip =>
    let opts :=
      if opts.any (fun o => o.hasHelpGen) then opts else opts ++ [DefaultHelpInput]
    match checkOptDups path opts with
    | .error e => .error e
    | .ok () =>
      match checkArgDups path args with
      | .error e => .error e
      | .ok () =>
        match checkSubcmdDups path subcmds with
        | .error e => .error e
        | .ok () =>
          match prepareAndValidateList subcmds with
          | .error e => .error e
          | .ok subcmds => .ok (.mk name path hu hb he opts args subcmds so ip)

def prepareAndValidateList : List CommandInfo → Except String (List CommandInfo)
  | [] => .ok []
  | c :: cs =>
    match prepareAndValidate c with
    | .error e => .error e
    | .ok c =>
      match prepareAndValidateList cs with
      | .error e => .error e
      | .ok cs => .ok (c :: cs)

end

/-- Go `CommandInfo.ParseThese` (cli.go): run the one-time validation pass
when the schema is not yet prepped (its panics become `.error`), then parse.
The Go method always returns a freshly allocated non-nil `*Command` together
with the (possibly nil) error; here that pair is the `.ok` payload. The
parse fuel `args.length + 1` strictly exceeds the subcommand recursion depth,
which consumes one token per level. -/
def ParseThese (c : CommandInfo) (env : EnvMap) (args : List String) :
    Except String (Command × Option ParseError) :=
  let prepped : Except String CommandInfo :=
    if c.isPrepped then .ok c else prepareAndValidate c
  match prepped with
  | .error e => .error e
  | .ok c => .ok (parse (args.length + 1) c env (.mk "" [] [] none) args)

/-! ## Claim test schemas -/

/-- C2 test schema: the required option `cc` of the root command. -/
def c2req : InputInfo :=
  { blankInput with
    id := "cc"
    nameLong := "cc"
    isRequired := true }

/-- C2 test schema: the `sub` subcommand (no inputs of its own). -/
def c2sub : CommandInfo :=
  .mk "sub" ["root", "sub"] [] "" "" [] [] [] false false

/-- C2 test schema: a root command with a required option and one
subcommand. -/
def c2root : CommandInfo :=
  .mk "root" ["root"] [] "" "" [c2req] [] [c2sub] false false

/-- C3 test schema: boolean option with short name `b`. -/
def c3b : InputInfo :=
  { blankInput with
    id := "b"
    nameShort := some 'b'
    isBoolOpt := true }

/-- C3 test schema: boolean option with short name `c`. -/
def c3c : InputInfo :=
  { blankInput with
    id := "c"
    nameShort := some 'c'
    isBoolOpt := true }

/-- C3 test schema: a command with the two boolean options `b` and `c`. -/
def c3info : CommandInfo :=
  .mk "c3" ["c3"] [] "" "" [c3b, c3c] [] [] false false

/-- C4 test schema: non-boolean option with short name `a`. -/
def c4a : InputInfo :=
  { blankInput with
    id := "a"
    nameShort := some 'a' }

/-- C4 test schema: a command with the non-boolean short option `a`. -/
def c4info : CommandInfo :=
  .mk "c4" ["c4"] [] "" "" [c4a] [] [] false false

/-- C5 test schema: one option named `opt1` and one positional argument. -/
def c5info : CommandInfo :=
  .mk "c5" ["c5"] [] "" ""
    [{ blankInput with
       id := "opt1"
       nameLong := "opt1" }]
    [{ blankInput with
       id := "arg1"
       valueName := "arg1" }]
    [] false false

/-- C6 test schema positional argument. -/
def c6arg : InputInfo :=
  { blankInput with
    id := "arg1"
    valueName := "arg1" }

/-- C6 test schema: exactly one declared positional argument, no
subcommands. -/
def c6info : CommandInfo :=
  .mk "c6" ["c6"] [] "" "" [] [c6arg] [] false false

/-- C9 test schema: one declared positional argument. -/
def c9info : CommandInfo :=
  .mk "c9" ["c9"] [] "" ""
    []
    [{ blankInput with
       id := "arg1"
       valueName := "arg1" }]
    [] false false

/-- C10 test schema: one non-boolean option with long name `str`, a declared
default, and a bound environment variable `STR`. -/
def c10info : CommandInfo :=
  .mk "c10" ["c10"] [] "" ""
    [{ blankInput with
       id := "str"
       nameLong := "str"
       strDefault := "dv"
       hasStrDefault := true
       envVar := "STR" }]
    [] [] false false

/-- Whether an `Except` result is an error (a modelled Go panic). -/
def isErrExcept {α : Type} : Except String α → Bool
  | .error _ => true
  | .ok _ => false

/-- C7 test schema: option with id `x`. -/
def c7xOpt : InputInfo :=
  { blankInput with
    id := "x"
    nameLong := "x" }

/-- C7 test schema: positional argument with the same id `x`. -/
def c7xArg : InputInfo :=
  { blankInput with
    id := "x"
    valueName := "x" }

/-- C7 test schema: a command whose option and positional argument share the
identifier `x`. -/
def c7cross : CommandInfo :=
  .mk "c7" ["c7"] [] "" "" [c7xOpt] [c7xArg] [] false false

/-- C7 test schema: a second option with id `x` (distinct long name). -/
def c7xOpt2 : InputInfo :=
  { blankInput with
    id := "x"
    nameLong := "y" }

/-- C7 test schema: a command with two options sharing the id `x`. -/
def c7dupOpts : CommandInfo :=
  .mk "c7" ["c7"] [] "" "" [c7xOpt, c7xOpt2] [] [] false false

/-- C7 test schema: a second positional argument with id `x`. -/
def c7xArg2 : InputInfo :=
  { blankInput with
    id := "x"
    valueName := "y" }

/-- C7 test schema: a command with two positional arguments sharing the id
`x`. -/
def c7dupArgs : CommandInfo :=
  .mk "c7" ["c7"] [] "" "" [] [c7xArg, c7xArg2] [] false false

/-- C8 test schema: an optional positional argument `o1`. -/
def c8o1 : InputInfo :=
  { blankInput with
    id := "o1"
    valueName := "o1" }

/-- C8 test schema: a required positional argument `r2`. -/
def c8r2 : InputInfo :=
  { blankInput with
    id := "r2"
    valueName := "r2"
    isRequired := true }

/-- C8 test schema: a command already holding the optional positional
argument `o1` (the builder state right before `Arg` is called with `r2`). -/
def c8base : CommandInfo :=
  .mk "c8" ["c8"] [] "" "" [] [c8o1] [] false false

/-- C8 test schema: a command whose declared positional arguments are an
optional one followed by a required one (as Go data, bypassing the `Arg`
builder). -/
def c8bad : CommandInfo :=
  .mk "c8" ["c8"] [] "" "" [] [c8o1, c8r2] [] false false

/-! ## Claim theorems -/

/-- C2: a held missing-required-options error at a command level combines
with the matched subcommand's result so that a help/version-requested signal
from the subcommand wins, while any other subcommand result is replaced by
the held error; end to end, a root command missing required `--cc` yields the
help signal for `["sub", "-h"]` but the missing-options error for
`["sub"]`. -/
theorem claim2_help_wins_over_missing_required :
    (∀ (path names : List String) (e : Option ParseError),
      combineSubcmdErr (some (.missingOptions path names)) e =
        (match e with
         | some (.helpOrVersionRequested i) => some (.helpOrVersionRequested i)
         | _ => some (.missingOptions path names))) ∧
    ParseThese c2root [] ["sub", "-h"] =
      .ok (.mk "" [] [] (some (.mk "sub" [] [] none)),
        some (.helpOrVersionRequested ⟨.bool true, "help", "", fromOpt "h"⟩)) ∧
    ParseThese c2root [] ["sub"] =
      .ok (.mk "" [] [] (some (.mk "sub" [] [] none)),
        some (.missingOptions ["root"] ["--cc"])) := by
  refine ⟨?_, rfl, rfl⟩
  intro path names e
  cases e with
  | none => rfl
  | some pe => cases pe <;> rfl

/-- Helper for C3: against any schema whose short options `b` and `c` are
boolean, option scanning treats the token `-bc` exactly like the token
sequence `-b` `-c`. -/
lemma scanOptions_bc_cluster (c : CommandInfo) (p : Command) (B C : InputInfo)
    (hb : lookupOptionByShortName c 'b' = some B) (hB : B.isBoolOpt = true)
    (hc : lookupOptionByShortName c 'c' = some C) (hC : C.isBoolOpt = true) :
    scanOptions c p ["-bc"] = scanOptions c p ["-b", "-c"] := by
  have tl1 : "-bc".toList = ['-', 'b', 'c'] := rfl
  have tl2 : "-b".toList = ['-', 'b'] := rfl
  have tl3 : "-c".toList = ['-', 'c'] := rfl
  simp +decide [scanOptions, scanToken, scanLongOrSingle, scanCluster, splitAtEq,
    tl1, tl2, tl3, hb, hc, hB, hC]
  cases hnB : newInput B (fromOpt "b") "" with
  | error e => rfl
  | ok pi =>
    cases hBH : B.hasHelpGen <;> cases hBV : B.hasVersioner <;>
      simp only [Bool.false_eq_true, if_false, if_true, reduceIte]
    case false.false =>
      cases hnC : newInput C (fromOpt "c") "" with
      | error e => rfl
      | ok pi2 =>
        cases hCH : C.hasHelpGen <;> cases hCV : C.hasVersioner <;>
          simp only [Bool.false_eq_true, if_false, if_true, reduceIte]

/-- C3: for every schema whose short options `b` and `c` are boolean (and any
environment, partial result and remaining fuel), parsing `["-bc"]` is the
same as parsing `["-b", "-c"]`; concretely both yield the two flag entries in
order `b` then `c`. -/
theorem claim3_short_cluster_equivalence :
    (∀ (fuel : Nat) (c : CommandInfo) (env : EnvMap) (p : Command) (B C : InputInfo),
      lookupOptionByShortName c 'b' = some B → B.isBoolOpt = true →
      lookupOptionByShortName c 'c' = some C → C.isBoolOpt = true →
      parse (fuel + 1) c env p ["-bc"] = parse (fuel + 1) c env p ["-b", "-c"]) ∧
    ParseThese c3info [] ["-bc"] =
      .ok (.mk ""
        [⟨.bool true, "b", "", fromOpt "b"⟩,
         ⟨.bool true, "c", "", fromOpt "c"⟩] [] none, none) ∧
    ParseThese c3info [] ["-b", "-c"] =
      .ok (.mk ""
        [⟨.bool true, "b", "", fromOpt "b"⟩,
         ⟨.bool true, "c", "", fromOpt "c"⟩] [] none, none) := by
  refine ⟨?_, rfl, rfl⟩
  intro fuel c env p B C hb hB hc hC
  simp only [parse]
  cases seedInputs c env p with
  | mk p1 oe =>
    cases oe with
    | none =>
      dsimp only
      rw [scanOptions_bc_cluster c p1 B C hb hB hc hC]
    | some e => rfl

/-- Witness for C3: the cluster equivalence applied to the concrete two
boolean-option schema. -/
theorem claim3_short_cluster_equivalence_witness :
    parse 1 c3info [] (.mk "" [] [] none) ["-bc"] =
      parse 1 c3info [] (.mk "" [] [] none) ["-b", "-c"] :=
  claim3_short_cluster_equivalence.1 0 c3info [] (.mk "" [] [] none) c3b c3c
    rfl rfl rfl rfl

/-- Helper for C4: against any schema whose short option `a` is non-boolean,
option scanning treats `-avalue`, `-a value` and `-a=value` alike. -/
lemma scanOptions_a_attached_value (c : CommandInfo) (p : Command) (A : InputInfo)
    (ha : lookupOptionByShortName c 'a' = some A) (hA : A.isBoolOpt = false) :
    scanOptions c p ["-avalue"] = scanOptions c p ["-a", "value"] ∧
    scanOptions c p ["-avalue"] = scanOptions c p ["-a=value"] := by
  have tl1 : "-avalue".toList = ['-', 'a', 'v', 'a', 'l', 'u', 'e'] := rfl
  have tl2 : "-a".toList = ['-', 'a'] := rfl
  have tl3 : "-a=value".toList = ['-', 'a', '=', 'v', 'a', 'l', 'u', 'e'] := rfl
  constructor <;>
  · simp +decide [scanOptions, scanToken, scanLongOrSingle, scanCluster, splitAtEq,
      tl1, tl2, tl3, ha, hA]
    cases hn : newInput A (fromOpt "a") "value" with
    | error e => rfl
    | ok pi =>
      cases hH : A.hasHelpGen <;> cases hV : A.hasVersioner <;>
        simp only [Bool.false_eq_true, if_false, if_true, reduceIte]

/-- C4: for every schema whose short option `a` is non-boolean (and any
environment, partial result and remaining fuel), parsing `["-avalue"]`,
`["-a", "value"]` and `["-a=value"]` all agree; concretely each yields the
one entry for `a` whose raw value is the string `value`. -/
theorem claim4_attached_value_equivalence :
    (∀ (fuel : Nat) (c : CommandInfo) (env : EnvMap) (p : Command) (A : InputInfo),
      lookupOptionByShortName c 'a' = some A → A.isBoolOpt = false →
      parse (fuel + 1) c env p ["-avalue"] = parse (fuel + 1) c env p ["-a", "value"] ∧
      parse (fuel + 1) c env p ["-avalue"] = parse (fuel + 1) c env p ["-a=value"]) ∧
    ParseThese c4info [] ["-avalue"] =
      .ok (.mk "" [⟨.str "value", "a", "value", fromOpt "a"⟩] [] none, none) ∧
    ParseThese c4info [] ["-a", "value"] =
      .ok (.mk "" [⟨.str "value", "a", "value", fromOpt "a"⟩] [] none, none) ∧
    ParseThese c4info [] ["-a=value"] =
      .ok (.mk "" [⟨.str "value", "a", "value", fromOpt "a"⟩] [] none, none) := by
  refine ⟨?_, rfl, rfl, rfl⟩
  intro fuel c env p A ha hA
  refine ⟨?_, ?_⟩
  · simp only [parse]
    cases seedInputs c env p with
    | mk p1 oe =>
      cases oe with
      | none =>
        dsimp only
        rw [(scanOptions_a_attached_value c p1 A ha hA).1]
      | some e => rfl
  · simp only [parse]
    cases seedInputs c env p with
    | mk p1 oe =>
      cases oe with
      | none =>
        dsimp only
        rw [(scanOptions_a_attached_value c p1 A ha hA).2]
      | some e => rfl

/-- Witness for C4: the attached-value equivalences applied to the concrete
one-option schema. -/
theorem claim4_attached_value_equivalence_witness :
    parse 1 c4info [] (.mk "" [] [] none) ["-avalue"] =
      parse 1 c4info [] (.mk "" [] [] none) ["-a", "value"] ∧
    parse 1 c4info [] (.mk "" [] [] none) ["-avalue"] =
      parse 1 c4info [] (.mk "" [] [] none) ["-a=value"] :=
  claim4_attached_value_equivalence.1 0 c4info [] (.mk "" [] [] none) c4a rfl rfl

/-- C5: parsing `["--", "--opt1="]` against a schema with option `opt1` and
one positional argument consumes the `--` terminator and yields no
option-provenance entries and exactly one positional-provenance entry whose
raw value is the literal string `--opt1=`. -/
theorem claim5_terminator_passthrough :
    ParseThese c5info [] ["--", "--opt1="] =
      .ok (.mk "" [⟨.str "--opt1=", "arg1", "--opt1=", fromArg 1⟩] [] none, none) :=
  rfl

/-- C6: tokens remaining after the positional walk become the verbatim
`Surplus` and their presence is never a parse error. First conjunct, for
every command, positional schema, slot index, partial result and token list:
appending extra tokens beyond the declared positional entries leaves the walk
of the filling tokens unchanged (same entries, same error or success) and
merely records the extra tokens verbatim as surplus on success. Second
conjunct: when the walk stops at an unfilled optional entry it succeeds (and
in that case no tokens remain, so no surplus arises). Third conjunct: with
exactly one declared positional argument, parsing `["A", "B", "C"]` end to
end yields the one positional entry `"A"` and surplus `["B", "C"]`. -/
theorem claim6_surplus_capture :
    (∀ (c : CommandInfo) (cargs : List InputInfo) (n : Nat)
       (rest extra : List String) (p : Command),
      rest.length = cargs.length →
      parsePositionals c cargs n (rest ++ extra) p =
        (match parsePositionals c cargs n rest p with
         | (p', none) =>
           ((match extra with
             | [] => p'
             | _ => p'.setSurplus extra), none)
         | (p', some e) => (p', some e))) ∧
    (∀ (c : CommandInfo) (a : InputInfo) (arest : List InputInfo) (n : Nat)
       (p : Command), a.isRequired = false →
      parsePositionals c (a :: arest) n [] p = (p, none)) ∧
    ParseThese c6info [] ["A", "B", "C"] =
      .ok (.mk "" [⟨.str "A", "arg1", "A", fromArg 1⟩] ["B", "C"] none, none) := by
  refine ⟨?_, ?_, rfl⟩
  · intro c cargs
    induction cargs with
    | nil =>
      intro n rest extra p hlen
      have hrest : rest = [] := List.length_eq_zero.mp (by simpa using hlen)
      subst hrest
      cases extra <;> simp [parsePositionals]
    | cons a arest ih =>
      intro n rest extra p hlen
      cases rest with
      | nil => simp at hlen
      | cons t trest =>
        simp only [List.cons_append, parsePositionals]
        cases hni : newInput a (fromArg (n + 1)) t with
        | error e => simp
        | ok pi => exact ih (n + 1) trest extra (p.pushInput pi) (by simpa using hlen)
  · intro c a arest n p hreq
    simp [parsePositionals, hreq]

/-- Witness for C6: the surplus characterization applied to the one-argument
schema with filling token `"A"` and extra tokens `["B", "C"]`, and the
stop-at-optional success applied to the optional `arg1` with no tokens
left. -/
theorem claim6_surplus_capture_witness :
    (parsePositionals c6info [c6arg] 0 (["A"] ++ ["B", "C"]) (.mk "" [] [] none) =
      (match parsePositionals c6info [c6arg] 0 ["A"] (.mk "" [] [] none) with
       | (p', none) =>
         ((match ["B", "C"] with
           | [] => p'
           | _ => p'.setSurplus ["B", "C"]), none)
       | (p', some e) => (p', some e))) ∧
    parsePositionals c6info [c6arg] 0 [] (.mk "" [] [] none) =
      (.mk "" [] [] none, none) :=
  ⟨claim6_surplus_capture.1 c6info [c6arg] 0 ["A"] ["B", "C"] (.mk "" [] [] none) rfl,
   claim6_surplus_capture.2.1 c6info c6arg [] 0 (.mk "" [] [] none) rfl⟩

/-- C9: an empty-string token is never interpreted as an option: for every
schema, built command, and tail of tokens, option scanning stops at a leading
`""` without consuming it; concretely, parsing `[""]` against a command with
one positional argument succeeds with one positional entry whose raw value is
the empty string. -/
theorem claim9_empty_token_not_option :
    (∀ (c : CommandInfo) (p : Command) (ts : List String),
      scanOptions c p ("" :: ts) = (p, .more ("" :: ts))) ∧
    ParseThese c9info [] [""] =
      .ok (.mk "" [⟨.str "", "arg1", "", fromArg 1⟩] [] none, none) :=
  ⟨fun _ _ _ => rfl, rfl⟩

/-- C10: `ParseThese` returns the built `Command` together with the error
(in the embedding the pair is always present, mirroring the always non-nil
Go pointer), and on an unknown-option error the command retains every entry
recorded before the failure point: here both the default-seeded and the
environment-seeded entries remain, so parsing is not atomic on error. -/
theorem claim10_nonatomic_error_result :
    ParseThese c10info [("STR", "ev")] ["-z"] =
      .ok (.mk ""
        [⟨.str "dv", "str", "dv", fromDefault⟩,
         ⟨.str "ev", "str", "ev", fromEnv "STR"⟩] [] none,
        some (.unknownOption ["c10"] "-z")) :=
  rfl

/-- Helper for C7: checking one option against a list containing an option
with the same id always errors. -/
lemma checkOptAgainstRest_isErr (path : List String) (a b : InputInfo)
    (pre post : List InputInfo) (hid : a.id = b.id) :
    isErrExcept (checkOptAgainstRest path a (pre ++ b :: post)) = true := by
  induction pre with
  | nil =>
    simp only [List.nil_append, checkOptAgainstRest, checkOptPair, hid]
    simp [isErrExcept]
  | cons h pre ih =>
    simp only [List.cons_append, checkOptAgainstRest]
    cases hp : checkOptPair path a h with
    | error e => simp [isErrExcept]
    | ok u => exact ih

/-- Helper for C7: the pairwise option-id scan errors whenever two options in
the list share an id. -/
lemma checkOptDups_isErr (path : List String) (l₁ l₂ l₃ : List InputInfo)
    (a b : InputInfo) (hid : a.id = b.id) :
    isErrExcept (checkOptDups path (l₁ ++ a :: l₂ ++ b :: l₃)) = true := by
  induction l₁ with
  | nil =>
    simp only [List.nil_append, checkOptDups]
    cases hr : checkOptAgainstRest path a (l₂ ++ b :: l₃) with
    | error e => simp [isErrExcept]
    | ok u =>
      have hcontra := checkOptAgainstRest_isErr path a b l₂ l₃ hid
      rw [hr] at hcontra
      simp [isErrExcept] at hcontra
  | cons h l₁ ih =>
    simp only [List.cons_append, checkOptDups]
    cases hr : checkOptAgainstRest path h (l₁ ++ a :: l₂ ++ b :: l₃) with
    | error e => simp [isErrExcept]
    | ok u => exact ih

/-- Helper for C7: checking one positional argument against a list containing
one with the same id always errors. -/
lemma checkArgAgainstRest_isErr (path : List String) (a b : InputInfo)
    (pre post : List InputInfo) (hid : a.id = b.id) :
    isErrExcept (checkArgAgainstRest path a (pre ++ b :: post)) = true := by
  induction pre with
  | nil =>
    simp only [List.nil_append, checkArgAgainstRest, hid]
    simp [isErrExcept]
  | cons h pre ih =>
    simp only [List.cons_append, checkArgAgainstRest]
    by_cases hp : a.id = h.id
    · simp [hp, isErrExcept]
    · simp only [if_neg hp]
      exact ih

/-- Helper for C7: the pairwise argument-id scan errors whenever two
positional arguments in the list share an id. -/
lemma checkArgDups_isErr (path : List String) (l₁ l₂ l₃ : List InputInfo)
    (a b : InputInfo) (hid : a.id = b.id) :
    isErrExcept (checkArgDups path (l₁ ++ a :: l₂ ++ b :: l₃)) = true := by
  induction l₁ with
  | nil =>
    simp only [List.nil_append, checkArgDups]
    cases hr : checkArgAgainstRest path a (l₂ ++ b :: l₃) with
    | error e => simp [isErrExcept]
    | ok u =>
      have hcontra := checkArgAgainstRest_isErr path a b l₂ l₃ hid
      rw [hr] at hcontra
      simp [isErrExcept] at hcontra
  | cons h l₁ ih =>
    simp only [List.cons_append, checkArgDups]
    cases hr : checkArgAgainstRest path h (l₁ ++ a :: l₂ ++ b :: l₃) with
    | error e => simp [isErrExcept]
    | ok u => exact ih

/-- Helper for C7: the validation pass errors whenever the command's options
contain two entries sharing an id. -/
lemma prepareAndValidate_isErr_of_dupOpts (name : String) (path hu : List String)
    (hb he : String) (l₁ l₂ l₃ : List InputInfo) (a b : InputInfo)
    (args : List InputInfo) (subs : List CommandInfo) (so ip : Bool)
    (hid : a.id = b.id) :
    isErrExcept (prepareAndValidate
      (.mk name path hu hb he (l₁ ++ a :: l₂ ++ b :: l₃) args subs so ip)) = true := by
  simp only [prepareAndValidate]
  cases hAny : (l₁ ++ a :: l₂ ++ b :: l₃).any (fun o => o.hasHelpGen) with
  | true =>
    simp only [if_true]
    cases hc : checkOptDups path (l₁ ++ a :: l₂ ++ b :: l₃) with
    | error e => simp [isErrExcept]
    | ok u =>
      have hcontra := checkOptDups_isErr path l₁ l₂ l₃ a b hid
      rw [hc] at hcontra
      simp [isErrExcept] at hcontra
  | false =>
    simp only [Bool.false_eq_true, if_false]
    have hre : (l₁ ++ a :: l₂ ++ b :: l₃) ++ [DefaultHelpInput] =
        l₁ ++ a :: l₂ ++ b :: (l₃ ++ [DefaultHelpInput]) := by simp
    rw [hre]
    cases hc : checkOptDups path (l₁ ++ a :: l₂ ++ b :: (l₃ ++ [DefaultHelpInput])) with
    | error e => simp [isErrExcept]
    | ok u =>
      have hcontra := checkOptDups_isErr path l₁ l₂ (l₃ ++ [DefaultHelpInput]) a b hid
      rw [hc] at hcontra
      simp [isErrExcept] at hcontra

/-- Helper for C7: the validation pass errors whenever the command's
positional arguments contain two entries sharing an id. -/
lemma prepareAndValidate_isErr_of_dupArgs (name : String) (path hu : List String)
    (hb he : String) (opts : List InputInfo) (l₁ l₂ l₃ : List InputInfo)
    (a b : InputInfo) (subs : List CommandInfo) (so ip : Bool)
    (hid : a.id = b.id) :
    isErrExcept (prepareAndValidate
      (.mk name path hu hb he opts (l₁ ++ a :: l₂ ++ b :: l₃) subs so ip)) = true := by
  simp only [prepareAndValidate]
  cases hc : checkOptDups path
      (if opts.any (fun o => o.hasHelpGen) then opts else opts ++ [DefaultHelpInput]) with
  | error e => simp [isErrExcept]
  | ok u =>
    cases ha : checkArgDups path (l₁ ++ a :: l₂ ++ b :: l₃) with
    | error e => simp [isErrExcept]
    | ok u2 =>
      have hcontra := checkArgDups_isErr path l₁ l₂ l₃ a b hid
      rw [ha] at hcontra
      simp [isErrExcept] at hcontra

/-- C7 counterexample: a command whose option and positional argument share
the identifier `x` passes the one-time validation pass without any panic
(`prepareAndValidate` only compares option ids among options and argument ids
among arguments, never across the two groups). -/
theorem claim7_counterexample :
    prepareAndValidate c7cross =
      .ok (.mk "c7" ["c7"] [] "" "" [c7xOpt, DefaultHelpInput] [c7xArg] [] false false) :=
  rfl

/-- C7 (amended): the one-time validation pass panics whenever a command's
options contain a duplicate identifier or its positional arguments contain a
duplicate identifier; an identifier shared between an option and a positional
argument is not checked. -/
theorem claim7_duplicate_id_validation :
    (∀ (name : String) (path hu : List String) (hb he : String)
       (l₁ l₂ l₃ : List InputInfo) (a b : InputInfo) (args : List InputInfo)
       (subs : List CommandInfo) (so ip : Bool), a.id = b.id →
      isErrExcept (prepareAndValidate
        (.mk name path hu hb he (l₁ ++ a :: l₂ ++ b :: l₃) args subs so ip)) = true) ∧
    (∀ (name : String) (path hu : List String) (hb he : String)
       (opts l₁ l₂ l₃ : List InputInfo) (a b : InputInfo)
       (subs : List CommandInfo) (so ip : Bool), a.id = b.id →
      isErrExcept (prepareAndValidate
        (.mk name path hu hb he opts (l₁ ++ a :: l₂ ++ b :: l₃) subs so ip)) = true) :=
  ⟨fun name path hu hb he l₁ l₂ l₃ a b args subs so ip hid =>
    prepareAndValidate_isErr_of_dupOpts name path hu hb he l₁ l₂ l₃ a b args subs so ip hid,
   fun name path hu hb he opts l₁ l₂ l₃ a b subs so ip hid =>
    prepareAndValidate_isErr_of_dupArgs name path hu hb he opts l₁ l₂ l₃ a b subs so ip hid⟩

/-- Witness for C7 (amended): two options sharing id `x` and two positional
arguments sharing id `x` each make validation panic. -/
theorem claim7_duplicate_id_validation_witness :
    isErrExcept (prepareAndValidate c7dupOpts) = true ∧
    isErrExcept (prepareAndValidate c7dupArgs) = true :=
  ⟨claim7_duplicate_id_validation.1 "c7" ["c7"] [] "" "" [] [] [] c7xOpt c7xOpt2
      [] [] false false rfl,
   claim7_duplicate_id_validation.2 "c7" ["c7"] [] "" "" [] [] [] [] c7xArg c7xArg2
      [] false false rfl⟩

/-- C8 counterexample: a command whose positional arguments are an optional
one followed by a required one passes the one-time validation pass without
any panic: the required-after-optional check is not part of
`prepareAndValidate`. -/
theorem claim8_counterexample :
    prepareAndValidate c8bad =
      .ok (.mk "c8" ["c8"] [] "" "" [DefaultHelpInput] [c8o1, c8r2] [] false false) :=
  rfl

/-- C8 (amended): declaring a required positional argument after an optional
one panics at schema-construction time in the `Arg` builder call, as do the
other structural checks: mixing positional arguments and subcommands (in
`Arg` and `Subcmd`), an empty command name (in `NewCmd`), and an option with
no name (in `Opt`). -/
theorem claim8_structural_checks_at_construction :
    (∀ (c : CommandInfo) (a : InputInfo) (l : List InputInfo) (lastA : InputInfo),
      c.subcmds = [] → a.isOption = false → a.isRequired = true →
      c.args = l ++ [lastA] → lastA.isRequired = false →
      c.Arg a = .error errReqArgAfterOptional) ∧
    NewCmd "" = .error errEmptyCmdName ∧
    (∀ (c : CommandInfo) (o : InputInfo), o.nameShort = none → o.nameLong = "" →
      c.Opt o = .error errEmptyOptNames) ∧
    (∀ (c : CommandInfo) (a : InputInfo) (s : CommandInfo) (ss : List CommandInfo),
      c.subcmds = s :: ss → c.Arg a = .error errMixingPosArgsAndSubcmds) ∧
    (∀ (c : CommandInfo) (sc : CommandInfo) (a : InputInfo) (as : List InputInfo),
      c.args = a :: as → c.Subcmd sc = .error errMixingPosArgsAndSubcmds) := by
  refine ⟨?_, rfl, ?_, ?_, ?_⟩
  · intro c a l lastA hsub hopt hreq hargs hlast
    simp [CommandInfo.Arg, hsub, hopt, hreq, hargs, hlast, List.getLast?_concat]
  · intro c o hs hl
    simp [CommandInfo.Opt, hs, hl]
  · intro c a s ss hsub
    simp [CommandInfo.Arg, hsub]
  · intro c sc a as hargs
    simp [CommandInfo.Subcmd, hargs]

/-- Witness for C8 (amended): appending the required `r2` after the optional
`o1` panics in `Arg`; the other construction-time checks at concrete
inputs. -/
theorem claim8_structural_checks_at_construction_witness :
    CommandInfo.Arg c8base c8r2 = .error errReqArgAfterOptional ∧
    CommandInfo.Opt c8base blankInput = .error errEmptyOptNames ∧
    CommandInfo.Arg c2root c8o1 = .error errMixingPosArgsAndSubcmds ∧
    CommandInfo.Subcmd c8base c2sub = .error errMixingPosArgsAndSubcmds :=
  ⟨claim8_structural_checks_at_construction.1 c8base c8r2 [] c8o1 rfl rfl rfl rfl rfl,
   claim8_structural_checks_at_construction.2.2.1 c8base blankInput rfl rfl,
   claim8_structural_checks_at_construction.2.2.2.1 c2root c8o1 c2sub [] rfl,
   claim8_structural_checks_at_construction.2.2.2.2 c8base c2sub c8o1 [] rfl⟩

end Cli
